import Mathlib

/-!
# mender-artifact: the `read` command (`cli/mender-artifact/read.go`)

A shallow embedding of `readArtifact`.  The function is stateful: it opens a
file, loads a key, hands two closures to the artifact reader and prints a
summary.  The embedding threads an explicit `World` (standard output and a log
of file-system events) and an explicit record `Locals` for the local variables
that the closures `ver` and `readScripts` capture and mutate.

The artifact reader (`areader`), `getKey`, `artifact.NewVerifier`, `os.Open`,
`encoding/json` and the exit-code constants are not part of `read.go`; they are
fields of `Env`.  The reader is an interaction tree `ReaderProg`: it may call
the signature callback and the script callback any number of times, may react
to what they return, and finally returns an error or the parsed artifact.
-/

namespace MenderArtifact

/-- Byte slices (`[]byte`) are lists of byte values. -/
abbrev Bytes := List Nat

/-- A Go `error` value is represented by the text of its `Error()` method;
`none` is `nil`. -/
abbrev GoError := Option String

/-- A Go map with string keys, seen through `range`: the entries in the order
in which this execution iterates over them.  Go leaves that order unspecified,
so two executions may see the same map as two different permutations. -/
abbrev GoMap (V : Type) := List (String × V)

/-- The `artifact.Info` value returned by `GetInfo`. -/
structure Info where
  Format : String
  Version : Int
deriving DecidableEq

/-- The `artifact.ArtifactProvides` value; `read.go` uses `ArtifactGroup` only. -/
structure ArtifactProvides where
  ArtifactGroup : String
deriving DecidableEq

/-- The `artifact.ArtifactDepends` value. -/
structure ArtifactDepends where
  ArtifactName : List String
  ArtifactGroup : List String
deriving DecidableEq

/-- One element of `GetUpdateAllFiles()`.  `Date` is the text that `%s` prints
for the modification time, `Checksum` the text that `%s` prints for the
checksum bytes. -/
structure DataFile where
  Name : String
  Size : Int
  Date : String
  Checksum : String
deriving DecidableEq

/-- The result of `GetUpdateMetaData`: a map from keys to JSON values.  The
source only takes its length and passes it to `json.Marshal`; it is kept as the
list of its entries, the values as text. -/
abbrev MetaData := List (String × String)

/-- Modelled from the spec: the type declarations of `handlers.Installer` and
of its provides and depends maps are missing.  An update handler is the tuple
of what its getters return; `provides` maps strings to strings and `depends`
maps strings to sets of strings (spec section 3).  Each getter returns a value
and an error, as in the source. -/
structure Installer where
  UpdateType : String
  UpdateProvides : Option (GoMap String) × GoError
  UpdateDepends : Option (GoMap (List String)) × GoError
  UpdateMetaData : MetaData × GoError
  UpdateAllFiles : List DataFile
deriving DecidableEq

/-- Modelled from the spec: the declaration of `areader.Reader` is missing.
The parsed artifact is the tuple of what the reader getters return after a
successful `read`; `Handlers` is an ordered sequence whose index is the payload
order (spec section 3). -/
structure ReaderData where
  ArtifactName : String
  Info : Info
  CompatibleDevices : List String
  ArtifactProvides : Option ArtifactProvides
  ArtifactDepends : Option ArtifactDepends
  Handlers : List Installer
deriving DecidableEq

/-- The `os.FileInfo` passed to the script callback; only `Name()` is used. -/
structure FileInfo where
  Name : String
deriving DecidableEq

/-- The behaviour of `read(ar, ver, readScripts)` as an interaction tree.
`verify message sig k` calls the signature callback and continues with `k`
applied to the error it returned.  `script r info k` calls the script callback
with an `io.Reader` holding the bytes `r` and continues with `k` applied to the
bytes left in that reader and the returned error.  `ret` ends the read with the
error or the parsed artifact. -/
inductive ReaderProg where
  | ret (res : Except String ReaderData)
  | verify (message sig : Bytes) (k : GoError → ReaderProg)
  | script (r : Bytes) (info : FileInfo) (k : Bytes → GoError → ReaderProg)

/-- A callback invocation made by the reader. -/
inductive Call where
  | ver (message sig : Bytes)
  | script (r : Bytes) (info : FileInfo)
deriving DecidableEq

/-- The value built by `cli.NewExitError(message, exitCode)`. -/
structure ExitError where
  message : String
  exitCode : Int
deriving DecidableEq

/-- The constructor `cli.NewExitError`. -/
def NewExitError (message : String) (exitCode : Int) : ExitError :=
  ⟨message, exitCode⟩

/-- The parts of `*cli.Context` that `readArtifact` consults: the positional
arguments and the value of the `key` option (empty when unset). -/
structure Context where
  args : List String
  key : String
deriving DecidableEq

/-- Go `c.NArg()`. -/
def Context.NArg (c : Context) : Nat := c.args.length

/-- Go `c.Args().First()`: the first argument, or the empty string. -/
def Context.First (c : Context) : String := c.args.headD ""

/-- File-system events performed by `readArtifact`. -/
inductive Event where
  | osOpen (name : String) (ok : Bool)
  | getKey (path : String)
  | fClose (name : String)
deriving DecidableEq

/-- What `readArtifact` has done to the outside: each `fmt.Printf` call appends
its text to `stdout`, each file-system action appends to `events`. -/
structure World where
  stdout : List String
  events : List Event
deriving DecidableEq

/-- Everything `read.go` refers to but does not define. -/
structure Env where
  errArtifactInvalidParameters : Int
  errArtifactOpen : Int
  /-- Go `os.Open`: the content of the file, or `none` when opening fails. -/
  osOpen : String → Option Bytes
  /-- Go `getKey(path)`: the key bytes and an error. -/
  getKey : String → Bytes × GoError
  /-- Go `artifact.NewVerifier(key).Verify(message, sig)`. -/
  Verify : Bytes → Bytes → Bytes → GoError
  /-- Go `areader.NewReader(f)` followed by `read`: what the reader does on a
  file with the given content. -/
  read : Bytes → ReaderProg
  /-- Go `json.Marshal`. -/
  jsonMarshal : MetaData → String × GoError
  /-- Go `json.Indent(buf, src, pre, indent)`: the buffer content and an error. -/
  jsonIndent : String → String → String → String × GoError

/-- The local variables of `readArtifact` captured by its closures. -/
structure Locals where
  sigInfo : String
  err : GoError
  scripts : List String
deriving DecidableEq

/-- The initial value of `sigInfo` (line 54). -/
def sigNone : String := "no signature"

/-- The status assigned first inside `ver` (lines 56-57). -/
def sigNoKey : String :=
  "signed but no key for verification provided; " ++
    "please use \x60-k\x60 option for providing verification key"

/-- The status assigned when `verifyCallback` returns an error (line 61). -/
def sigFailed : String := "signed; verification using provided key failed"

/-- The status assigned when `verifyCallback` returns nil (line 63). -/
def sigVerified : String := "signed and verified correctly"

/-- The closure `ver` (lines 55-67).  `verifyCallback` is `none` for a nil
function value.  The assignment `err = verifyCallback(message, sig)` writes the
captured variable `err`. -/
def ver (verifyCallback : Option (Bytes → Bytes → GoError)) (l : Locals)
    (message sig : Bytes) : Locals × GoError :=
  let l := { l with sigInfo := sigNoKey }
  let l :=
    match verifyCallback with
    | some vc =>
      let l := { l with err := vc message sig }
      if l.err ≠ none then { l with sigInfo := sigFailed }
      else { l with sigInfo := sigVerified }
    | none => l
  (l, none)

/-- The closure `readScripts` (lines 70-73): the locals after the call, the
bytes left in the reader `r`, and the returned error. -/
def readScripts (l : Locals) (r : Bytes) (info : FileInfo) : Locals × Bytes × GoError :=
  let l := { l with scripts := l.scripts ++ [info.Name] }
  (l, r, none)

/-- Running `read(ar, ver, readScripts)`: the reader program is executed with
the two closures as its callbacks. -/
def runReader (verifyCallback : Option (Bytes → Bytes → GoError)) :
    ReaderProg → Locals → Locals × Except String ReaderData
  | .ret res, l => (l, res)
  | .verify message sig k, l =>
    let (l, e) := ver verifyCallback l message sig
    runReader verifyCallback (k e) l
  | .script r info k, l =>
    let (l, r, e) := readScripts l r info
    runReader verifyCallback (k r e) l

/-- The callback invocations a reader program makes when every callback
returns nil and the script callback leaves its reader untouched. -/
def ReaderProg.calls : ReaderProg → List Call
  | .ret _ => []
  | .verify message sig k => Call.ver message sig :: (k none).calls
  | .script r info k => Call.script r info :: (k r none).calls

/-- The result a reader program ends with when every callback returns nil and
the script callback leaves its reader untouched. -/
def ReaderProg.result : ReaderProg → Except String ReaderData
  | .ret res => res
  | .verify _ _ k => (k none).result
  | .script r _ k => (k r none).result

/-- The signature-callback invocations among a list of calls. -/
def verCalls : List Call → List (Bytes × Bytes)
  | [] => []
  | Call.ver message sig :: cs => (message, sig) :: verCalls cs
  | Call.script _ _ :: cs => verCalls cs

/-- The script-callback invocations among a list of calls: the file infos. -/
def scriptCalls : List Call → List FileInfo
  | [] => []
  | Call.ver _ _ :: cs => scriptCalls cs
  | Call.script _ info :: cs => info :: scriptCalls cs

/-- Go `fmt.Printf`: the formatted text is appended to standard output. -/
def Printf (w : World) (text : String) : World :=
  { w with stdout := w.stdout ++ [text] }

/-- Record a file-system event. -/
def World.log (w : World) (e : Event) : World :=
  { w with events := w.events ++ [e] }

/-- The verb `%d` applied to an integer. -/
def fmtD (i : Int) : String :=
  if i < 0 then "-" ++ Nat.repr i.natAbs else Nat.repr i.natAbs

/-- The verb `%3d`: the decimal text padded with spaces on the left to width 3. -/
def fmtD3 (i : Int) : String :=
  let s := fmtD i
  String.mk (List.replicate (3 - s.length) ' ') ++ s

/-- The verb `%s` applied to a `[]string`: the elements separated by blanks,
in square brackets. -/
def fmtStrings (xs : List String) : String :=
  "[" ++ " ".intercalate xs ++ "]"

/-- Go `strings.Join`. -/
def stringsJoin (xs : List String) (sep : String) : String :=
  sep.intercalate xs

/-- Lines 113-124: the provides block of one update. -/
def printProvides (w : World) (p : Installer) : World :=
  let (provides, err) := p.UpdateProvides
  let w := Printf w "    Provides:"
  match err with
  | some e => Printf w (" Invalid provides section: " ++ e ++ "\n")
  | none =>
    match provides with
    | none => Printf w " Nothing\n"
    | some m =>
      if m.length = 0 then Printf w " Nothing\n"
      else
        let w := Printf w "\n"
        m.foldl (fun w kv => Printf w ("\t" ++ kv.1 ++ ": " ++ kv.2 ++ "\n")) w

/-- Lines 126-137: the depends block of one update. -/
def printDepends (w : World) (p : Installer) : World :=
  let (depends, err) := p.UpdateDepends
  let w := Printf w "    Depends:"
  match err with
  | some e => Printf w (" Invalid depends section: " ++ e ++ "\n")
  | none =>
    match depends with
    | none => Printf w " Nothing\n"
    | some m =>
      if m.length = 0 then Printf w " Nothing\n"
      else
        let w := Printf w "\n"
        m.foldl (fun w kv => Printf w ("\t" ++ kv.1 ++ ": " ++ fmtStrings kv.2 ++ "\n")) w

/-- Lines 139-159: the metadata block of one update. -/
def printMetaData (env : Env) (w : World) (p : Installer) : World :=
  let (metaData, err) := p.UpdateMetaData
  let w := Printf w "    Metadata:"
  match err with
  | some e => Printf w (" Invalid metadata section: " ++ e ++ "\n")
  | none =>
    if metaData.length = 0 then Printf w " Nothing\n"
    else
      let err : GoError := none
      let (metaDataSlice, err) :=
        if err = none then env.jsonMarshal metaData else ("", err)
      let (metaDataBuf, err) :=
        if err = none then env.jsonIndent metaDataSlice "\t" "  " else ("", err)
      match err with
      | some e => Printf w (" Invalid metadata section: " ++ e ++ "\n")
      | none => Printf w ("\n\t" ++ metaDataBuf ++ "\n")

/-- Lines 161-167: the files of one update. -/
def printFiles (w : World) (p : Installer) : World :=
  p.UpdateAllFiles.foldl (fun w f =>
    let w := Printf w "    Files:\n"
    let w := Printf w ("      name:     " ++ f.Name ++ "\n")
    let w := Printf w ("      size:     " ++ fmtD f.Size ++ "\n")
    let w := Printf w ("      modified: " ++ f.Date ++ "\n")
    Printf w ("      checksum: " ++ f.Checksum ++ "\n")) w

/-- Lines 110-167: the body of the loop over the update handlers. -/
def printUpdate (env : Env) (w : World) (k : Nat) (p : Installer) : World :=
  let w := Printf w ("  " ++ fmtD3 k ++ ":\n")
  let w := Printf w ("    Type:   " ++ p.UpdateType ++ "\n")
  let w := printProvides w p
  let w := printDepends w p
  let w := printMetaData env w p
  printFiles w p

/-- Line 109: `for k, p := range inst`, from index `k` on. -/
def printUpdates (env : Env) : Nat → List Installer → World → World
  | _, [], w => w
  | k, p :: rest, w => printUpdates env (k + 1) rest (printUpdate env w k p)

/-- Lines 81-169: the summary printed after a successful read. -/
def printSummary (env : Env) (l : Locals) (r : ReaderData) (w : World) : World :=
  let inst := r.Handlers
  let info := r.Info
  let w := Printf w "Mender artifact:\n"
  let w := Printf w ("  Name: " ++ r.ArtifactName ++ "\n")
  let w := Printf w ("  Format: " ++ info.Format ++ "\n")
  let w := Printf w ("  Version: " ++ fmtD info.Version ++ "\n")
  let w := Printf w ("  Signature: " ++ l.sigInfo ++ "\n")
  let w := Printf w ("  Compatible devices: \x27" ++ fmtStrings r.CompatibleDevices ++ "\x27\n")
  let w :=
    match r.ArtifactProvides with
    | some provides => Printf w ("  Provides group: " ++ provides.ArtifactGroup ++ "\n")
    | none => w
  let w :=
    match r.ArtifactDepends with
    | some depends =>
      let w := Printf w ("  Depends on one of artifact(s): [" ++
        stringsJoin depends.ArtifactName ", " ++ "]\n")
      Printf w ("  Depends on one of group(s): [" ++
        stringsJoin depends.ArtifactGroup ", " ++ "]\n")
    | none => w
  let w := if (l.scripts.length : Int) > -1 then Printf w "  State scripts:\n" else w
  let w := l.scripts.foldl (fun w scr => Printf w ("    " ++ scr ++ "\n")) w
  let w := Printf w "\nUpdates:\n"
  printUpdates env 0 inst w

/-- Lines 43-169: `readArtifact` after the file has been opened and its close
deferred.  `f` is the content of the opened file. -/
def readOpened (env : Env) (c : Context) (f : Bytes) (w : World) : World × Option ExitError :=
  let w := w.log (Event.getKey c.key)
  let (key, err) := env.getKey c.key
  match err with
  | some e => (w, some (NewExitError e env.errArtifactInvalidParameters))
  | none =>
    let verifyCallback : Option (Bytes → Bytes → GoError) := some (env.Verify key)
    let l : Locals := ⟨sigNone, err, []⟩
    let (l, res) := runReader verifyCallback (env.read f) l
    match res with
    | .error e => (w, some (NewExitError e 0))
    | .ok r => (printSummary env l r w, none)

/-- The command `readArtifact` (lines 30-170), started with nothing printed and
no file-system event yet: what it prints and does, and the error it returns
(`none` is nil). -/
def readArtifact (env : Env) (c : Context) : World × Option ExitError :=
  let w : World := ⟨[], []⟩
  if c.NArg = 0 then
    (w, some (NewExitError ("Nothing specified, nothing read. \nMaybe you wanted" ++
      " to say \x27artifacts read <pathspec>\x27?") env.errArtifactInvalidParameters))
  else
    match env.osOpen c.First with
    | none =>
      (w.log (Event.osOpen c.First false),
        some (NewExitError ("Can not open artifact: " ++ c.First) env.errArtifactOpen))
    | some f =>
      let w := w.log (Event.osOpen c.First true)
      let (w, ret) := readOpened env c f w
      (w.log (Event.fClose c.First), ret)

/-! ## The summary as a list of lines

The definitions below describe, without any state, what the summary looks like.
They are compared with `readArtifact` in the theorems. -/

/-- The signature line of the summary for a given status text. -/
def signatureLine (status : String) : String :=
  "  Signature: " ++ status ++ "\n"

/-- The signature status after the given invocations of the signature callback
with the verification function `verify`, starting from `initial`: the outcome
of the last invocation, or `initial` when there was none. -/
def statusAfter (verify : Bytes → Bytes → GoError) (initial : String)
    (cs : List (Bytes × Bytes)) : String :=
  match cs.getLast? with
  | none => initial
  | some (message, sig) => if verify message sig = none then sigVerified else sigFailed

/-- The artifact-level lines of the summary, up to the state scripts. -/
def artifactLines (status : String) (r : ReaderData) : List String :=
  ["Mender artifact:\n",
   "  Name: " ++ r.ArtifactName ++ "\n",
   "  Format: " ++ r.Info.Format ++ "\n",
   "  Version: " ++ fmtD r.Info.Version ++ "\n",
   signatureLine status,
   "  Compatible devices: \x27" ++ fmtStrings r.CompatibleDevices ++ "\x27\n"] ++
  (match r.ArtifactProvides with
   | some provides => ["  Provides group: " ++ provides.ArtifactGroup ++ "\n"]
   | none => []) ++
  (match r.ArtifactDepends with
   | some depends =>
     ["  Depends on one of artifact(s): [" ++ stringsJoin depends.ArtifactName ", " ++ "]\n",
      "  Depends on one of group(s): [" ++ stringsJoin depends.ArtifactGroup ", " ++ "]\n"]
   | none => [])

/-- The state-scripts section: its heading and one line per script name. -/
def scriptLines (names : List String) : List String :=
  "  State scripts:\n" :: names.map (fun scr => "    " ++ scr ++ "\n")

/-- The line printed for one entry of an update provides map. -/
def providesEntry (kv : String × String) : String :=
  "\t" ++ kv.1 ++ ": " ++ kv.2 ++ "\n"

/-- The line printed for one entry of an update depends map. -/
def dependsEntry (kv : String × List String) : String :=
  "\t" ++ kv.1 ++ ": " ++ fmtStrings kv.2 ++ "\n"

/-- The provides block of one update. -/
def providesLines (p : Installer) : List String :=
  "    Provides:" ::
    (match p.UpdateProvides.2 with
     | some e => [" Invalid provides section: " ++ e ++ "\n"]
     | none =>
       match p.UpdateProvides.1 with
       | none => [" Nothing\n"]
       | some m => if m.length = 0 then [" Nothing\n"] else "\n" :: m.map providesEntry)

/-- The depends block of one update. -/
def dependsLines (p : Installer) : List String :=
  "    Depends:" ::
    (match p.UpdateDepends.2 with
     | some e => [" Invalid depends section: " ++ e ++ "\n"]
     | none =>
       match p.UpdateDepends.1 with
       | none => [" Nothing\n"]
       | some m => if m.length = 0 then [" Nothing\n"] else "\n" :: m.map dependsEntry)

/-- The metadata block of one update. -/
def metaDataLines (env : Env) (p : Installer) : List String :=
  "    Metadata:" ::
    (match p.UpdateMetaData.2 with
     | some e => [" Invalid metadata section: " ++ e ++ "\n"]
     | none =>
       if p.UpdateMetaData.1.length = 0 then [" Nothing\n"]
       else
         match (env.jsonMarshal p.UpdateMetaData.1).2 with
         | some e => [" Invalid metadata section: " ++ e ++ "\n"]
         | none =>
           match env.jsonIndent (env.jsonMarshal p.UpdateMetaData.1).1 "\t" "  " with
           | (_, some e) => [" Invalid metadata section: " ++ e ++ "\n"]
           | (buf, none) => ["\n\t" ++ buf ++ "\n"])

/-- The five lines printed for one file of an update. -/
def fileLines (f : DataFile) : List String :=
  ["    Files:\n",
   "      name:     " ++ f.Name ++ "\n",
   "      size:     " ++ fmtD f.Size ++ "\n",
   "      modified: " ++ f.Date ++ "\n",
   "      checksum: " ++ f.Checksum ++ "\n"]

/-- The lines of all files of one update, in order. -/
def filesLines (p : Installer) : List String :=
  p.UpdateAllFiles.flatMap fileLines

/-- Everything printed for the update with index `k`. -/
def updateLines (env : Env) (k : Nat) (p : Installer) : List String :=
  ["  " ++ fmtD3 k ++ ":\n", "    Type:   " ++ p.UpdateType ++ "\n"] ++
    providesLines p ++ dependsLines p ++ metaDataLines env p ++ filesLines p

/-- The updates section below its heading: the blocks of the handlers in list
order, numbered from 0. -/
def updatesLines (env : Env) (hs : List Installer) : List String :=
  hs.enum.flatMap (fun kp => updateLines env kp.1 kp.2)

/-- The whole summary for a signature status, the script names and the parsed
artifact. -/
def summaryLines (env : Env) (status : String) (names : List String) (r : ReaderData) :
    List String :=
  artifactLines status r ++ scriptLines names ++ "\nUpdates:\n" :: updatesLines env r.Handlers

/-- The number of successful `os.Open` calls among the events. -/
def openCount (es : List Event) : Nat :=
  es.countP (fun e => match e with
    | .osOpen _ true => true
    | _ => false)

/-- The number of `Close` calls among the events. -/
def closeCount (es : List Event) : Nat :=
  es.countP (fun e => match e with
    | .fClose _ => true
    | _ => false)

/-- The text of the error returned when no argument is given (lines 32-33). -/
def nothingSpecified : String :=
  "Nothing specified, nothing read. \nMaybe you wanted" ++
    " to say \x27artifacts read <pathspec>\x27?"

/-! ## Comparing two reads of the same artifact -/

/-- Two results of a map getter that hold the same map: the same error, and
either both nil or the same entries up to the order of iteration. -/
def sameMap {V : Type} (a b : Option (GoMap V) × GoError) : Prop :=
  a.2 = b.2 ∧
    match a.1, b.1 with
    | none, none => True
    | some m, some n => m.Perm n
    | _, _ => False

instance sameMapDecidable {V : Type} [DecidableEq V] (a b : Option (GoMap V) × GoError) :
    Decidable (sameMap a b) :=
  match a, b with
  | (none, ea), (none, eb) => decidable_of_iff (ea = eb) (by simp [sameMap])
  | (some m, ea), (some n, eb) => decidable_of_iff (ea = eb ∧ m.Perm n) (by simp [sameMap])
  | (none, _), (some _, _) => isFalse (by simp [sameMap])
  | (some _, _), (none, _) => isFalse (by simp [sameMap])


/-- Two update handlers with equal type, provides, depends, metadata and
files, the maps compared as maps. -/
def sameInstaller (p q : Installer) : Prop :=
  p.UpdateType = q.UpdateType ∧ sameMap p.UpdateProvides q.UpdateProvides ∧
    sameMap p.UpdateDepends q.UpdateDepends ∧ p.UpdateMetaData = q.UpdateMetaData ∧
    p.UpdateAllFiles = q.UpdateAllFiles

instance sameInstallerDecidable (p q : Installer) : Decidable (sameInstaller p q) := by
  unfold sameInstaller
  infer_instance


/-- Two structurally identical parsed artifacts. -/
def sameData (a b : ReaderData) : Prop :=
  a.ArtifactName = b.ArtifactName ∧ a.Info = b.Info ∧
    a.CompatibleDevices = b.CompatibleDevices ∧ a.ArtifactProvides = b.ArtifactProvides ∧
    a.ArtifactDepends = b.ArtifactDepends ∧ List.Forall₂ sameInstaller a.Handlers b.Handlers

instance sameDataDecidable (a b : ReaderData) : Decidable (sameData a b) := by
  unfold sameData
  infer_instance


/-- Two structurally identical results of `read`: the same error, or
structurally identical artifacts. -/
def sameResult : Except String ReaderData → Except String ReaderData → Prop
  | .error e1, .error e2 => e1 = e2
  | .ok a, .ok b => sameData a b
  | _, _ => False

/-- The lines printed for the entries of the provides and depends maps of an
update are those that start with a tab. -/
def isEntryLine (s : String) : Bool :=
  s.data.head? = some '\t'

/-- The outcomes of the signature callback over the given invocations with the
verification function `verify`: `true` for a check that returned nil. -/
def verifyOutcomes (verify : Bytes → Bytes → GoError) (cs : List (Bytes × Bytes)) :
    List Bool :=
  cs.map (fun ms => (verify ms.1 ms.2).isNone)

/-- Line-by-line comparison of two outputs.  The two outputs are read in step.
At a position where both hold an entry line the two lines are collected in
`acc1` and `acc2`; at a position where both hold another line the two lines
must be equal and the entry lines collected since the previous such line must
be the same up to their order; a position with an entry line on one side only,
or an output longer than the other, fails. -/
def sameUpToEntryOrderFrom :
    List String → List String → List String → List String → Bool
  | acc1, acc2, [], [] => decide (acc1.Perm acc2)
  | acc1, acc2, x :: xs, y :: ys =>
    if isEntryLine x then
      if isEntryLine y then sameUpToEntryOrderFrom (x :: acc1) (y :: acc2) xs ys else false
    else
      if isEntryLine y then false
      else decide (acc1.Perm acc2) && decide (x = y) && sameUpToEntryOrderFrom [] [] xs ys
  | _, _, _ :: _, [] => false
  | _, _, [], _ :: _ => false

/-- Two outputs that agree line by line, except that the entry lines standing
between two consecutive other lines may come in another order. -/
def sameUpToEntryOrder (xs ys : List String) : Prop :=
  sameUpToEntryOrderFrom [] [] xs ys = true

instance sameUpToEntryOrderDecidable (xs ys : List String) :
    Decidable (sameUpToEntryOrder xs ys) := by
  unfold sameUpToEntryOrder
  infer_instance

/-- Two outputs whose comparison succeeds after any two collections of entry
lines that are the same up to order. -/
def agreeAfterEntries (xs ys : List String) : Prop :=
  ∀ acc1 acc2 : List String, acc1.Perm acc2 → sameUpToEntryOrderFrom acc1 acc2 xs ys = true

/-- The environment with another reader behaviour. -/
def Env.withReader (env : Env) (rd : Bytes → ReaderProg) : Env :=
  { env with read := rd }

/-! ## Sample inputs -/

/-- A sample verification function: it needs a key, and accepts a signature
that is the key followed by the message. -/
def sampleVerify (key message sig : Bytes) : GoError :=
  if key = [] then some "signer: missing public key"
  else if sig = key ++ message then none
  else some "verification failed"

/-- A sample file of an update. -/
def sampleFile : DataFile :=
  ⟨"rootfs.img", 1048576, "2018-01-01 00:00:00 +0000 UTC", "abc123"⟩

/-- A sample update handler with two provides and two depends entries. -/
def sampleHandler : Installer :=
  ⟨"rootfs-image",
    (some [("rootfs_image_checksum", "abc123"), ("artifact_name", "release-1")], none),
    (some [("device_type", ["beaglebone", "qemu"]), ("artifact_group", ["stable"])], none),
    ([("arch", "\"arm\"")], none),
    [sampleFile]⟩

/-- The handler `sampleHandler` when the iteration over its two maps yields the
entries in the other order. -/
def sampleHandlerSwapped : Installer :=
  ⟨"rootfs-image",
    (some [("artifact_name", "release-1"), ("rootfs_image_checksum", "abc123")], none),
    (some [("artifact_group", ["stable"]), ("device_type", ["beaglebone", "qemu"])], none),
    ([("arch", "\"arm\"")], none),
    [sampleFile]⟩

/-- A sample update handler whose three section getters return errors. -/
def sampleBrokenHandler : Installer :=
  ⟨"rootfs-image",
    (none, some "unexpected end of JSON input"),
    (none, some "invalid character"),
    ([], some "metadata missing"),
    [sampleFile]⟩

/-- A sample parsed artifact with a broken update followed by a sound one. -/
def sampleData : ReaderData :=
  ⟨"release-1", ⟨"mender", 3⟩, ["beaglebone"], some ⟨"stable"⟩,
    some ⟨["release-0"], ["stable"]⟩, [sampleBrokenHandler, sampleHandler]⟩

/-- The artifact `sampleData` with the maps of its second update iterated in
the other order. -/
def sampleDataSwapped : ReaderData :=
  ⟨"release-1", ⟨"mender", 3⟩, ["beaglebone"], some ⟨"stable"⟩,
    some ⟨["release-0"], ["stable"]⟩, [sampleBrokenHandler, sampleHandlerSwapped]⟩

/-- A reader that finds a signature (valid for the key `[7]`) and two state
scripts with the same name in between another, stops when a callback returns
an error, and otherwise returns `res`. -/
def signedReader (res : Except String ReaderData) : ReaderProg :=
  .verify [1, 2] [7, 1, 2] (fun e =>
    match e with
    | some msg => .ret (.error msg)
    | none =>
      .script [10, 11] ⟨"ArtifactInstall_Enter_01"⟩ (fun _ e =>
        match e with
        | some msg => .ret (.error msg)
        | none =>
          .script [12] ⟨"ArtifactCommit_Leave_02"⟩ (fun _ e =>
            match e with
            | some msg => .ret (.error msg)
            | none =>
              .script [10, 11] ⟨"ArtifactInstall_Enter_01"⟩ (fun _ _ => .ret res))))

/-- A reader that finds another signed message (its signature valid for the key
`[7]` as well) and script entries of other content under the same three names,
and returns `res`. -/
def signedReaderOther (res : Except String ReaderData) : ReaderProg :=
  .verify [3] [7, 3] (fun _ =>
    .script [20] ⟨"ArtifactInstall_Enter_01"⟩ (fun _ _ =>
      .script [] ⟨"ArtifactCommit_Leave_02"⟩ (fun _ _ =>
        .script [21, 22] ⟨"ArtifactInstall_Enter_01"⟩ (fun _ _ => .ret res))))

/-- A sample handler whose provides map has two entries and whose depends map
has one. -/
def sampleHandlerTwoOne : Installer :=
  ⟨"rootfs-image",
    (some [("artifact_name", "release-1"), ("device_type", "[qemu]")], none),
    (some [("artifact_group", ["stable"])], none),
    ([], none),
    []⟩

/-- The handler `sampleHandlerTwoOne` with the entry `device_type` in its depends
map instead: the same lines are printed, one of them in another block. -/
def sampleHandlerOneTwo : Installer :=
  ⟨"rootfs-image",
    (some [("artifact_name", "release-1")], none),
    (some [("device_type", ["qemu"]), ("artifact_group", ["stable"])], none),
    ([], none),
    []⟩

/-- A sample handler with one provides entry and no depends map. -/
def sampleHandlerFirst : Installer :=
  ⟨"rootfs-image", (some [("artifact_name", "release-1")], none), (none, none), ([], none), []⟩

/-- A sample handler with another provides entry and no depends map. -/
def sampleHandlerSecond : Installer :=
  ⟨"rootfs-image", (some [("artifact_group", "stable")], none), (none, none), ([], none), []⟩

/-- A reader that finds no signature and one state script. -/
def unsignedReader (res : Except String ReaderData) : ReaderProg :=
  .script [10, 11] ⟨"ArtifactInstall_Enter_01"⟩ (fun _ _ => .ret res)

/-- A sample environment around a given reader: one file can be opened, the
unset key option gives an empty key, `public.key` holds the key `[7]` and
`other.key` the key `[8]`, and any other key path fails to load. -/
def sampleEnv (reader : ReaderProg) : Env where
  errArtifactInvalidParameters := 1
  errArtifactOpen := 2
  osOpen := fun name => if name = "artifact.mender" then some [77, 69] else none
  getKey := fun path =>
    if path = "" then ([], none)
    else if path = "public.key" then ([7], none)
    else if path = "other.key" then ([8], none)
    else ([], some ("Invalid key path: " ++ path))
  Verify := sampleVerify
  read := fun _ => reader
  jsonMarshal := fun m =>
    ("\x7b" ++ ",".intercalate (m.map (fun kv => "\"" ++ kv.1 ++ "\":" ++ kv.2)) ++ "\x7d", none)
  jsonIndent := fun src _ _ => (src, none)

/-- The command line `read artifact.mender`. -/
def ctxNoKey : Context := ⟨["artifact.mender"], ""⟩

/-- The command line `read -k public.key artifact.mender`. -/
def ctxKey : Context := ⟨["artifact.mender"], "public.key"⟩

/-- The command line `read -k other.key artifact.mender`. -/
def ctxOtherKey : Context := ⟨["artifact.mender"], "other.key"⟩

/-- The command line `read` without argument. -/
def ctxNoArgs : Context := ⟨[], ""⟩

/-- The command line `read missing.mender`. -/
def ctxMissing : Context := ⟨["missing.mender"], ""⟩

/-- The command line `read -k nowhere.key artifact.mender`. -/
def ctxBadKey : Context := ⟨["artifact.mender"], "nowhere.key"⟩

/-! ## Auxiliary facts -/

theorem foldl_Printf {α : Type} (g : α → String) (xs : List α) (w : World) :
    xs.foldl (fun w x => Printf w (g x)) w = ⟨w.stdout ++ xs.map g, w.events⟩ := by
  induction xs generalizing w with
  | nil => simp
  | cons x xs ih =>
    simp only [List.foldl_cons, ih, List.map_cons]
    simp [Printf]

theorem printProvides_eq (w : World) (p : Installer) :
    printProvides w p = ⟨w.stdout ++ providesLines p, w.events⟩ := by
  rcases p with ⟨t, ⟨pm, pe⟩, d, m, fs⟩
  cases pe with
  | some e => simp [printProvides, providesLines, Printf]
  | none =>
    cases pm with
    | none => simp [printProvides, providesLines, Printf]
    | some mp =>
      by_cases h : mp.length = 0
      · simp [printProvides, providesLines, Printf, h]
      · have := foldl_Printf providesEntry mp (Printf (Printf w "    Provides:") "\n")
        simp only [providesEntry] at this
        simp only [printProvides, providesLines, h, if_false, this]
        simp [Printf]

theorem printDepends_eq (w : World) (p : Installer) :
    printDepends w p = ⟨w.stdout ++ dependsLines p, w.events⟩ := by
  rcases p with ⟨t, pr, ⟨dm, de⟩, m, fs⟩
  cases de with
  | some e => simp [printDepends, dependsLines, Printf]
  | none =>
    cases dm with
    | none => simp [printDepends, dependsLines, Printf]
    | some mp =>
      by_cases h : mp.length = 0
      · simp [printDepends, dependsLines, Printf, h]
      · have := foldl_Printf dependsEntry mp (Printf (Printf w "    Depends:") "\n")
        simp only [dependsEntry] at this
        simp only [printDepends, dependsLines, h, if_false, this]
        simp [Printf]

theorem printMetaData_eq (env : Env) (w : World) (p : Installer) :
    printMetaData env w p = ⟨w.stdout ++ metaDataLines env p, w.events⟩ := by
  rcases p with ⟨t, pr, d, ⟨md, me⟩, fs⟩
  cases me with
  | some e => simp [printMetaData, metaDataLines, Printf]
  | none =>
    by_cases h : md.length = 0
    · simp [printMetaData, metaDataLines, Printf, h]
    · rcases hm : env.jsonMarshal md with ⟨sl, e1⟩
      cases e1 with
      | some e => simp [printMetaData, metaDataLines, Printf, h, hm]
      | none =>
        rcases hi : env.jsonIndent sl "\t" "  " with ⟨buf, e2⟩
        cases e2 with
        | some e => simp [printMetaData, metaDataLines, Printf, h, hm, hi]
        | none => simp [printMetaData, metaDataLines, Printf, h, hm, hi]

theorem printFiles_eq (w : World) (p : Installer) :
    printFiles w p = ⟨w.stdout ++ filesLines p, w.events⟩ := by
  rcases p with ⟨t, pr, d, m, fs⟩
  simp only [printFiles, filesLines]
  induction fs generalizing w with
  | nil => simp
  | cons f fs ih =>
    simp only [List.foldl_cons, ih, List.flatMap_cons]
    simp [Printf, fileLines]

theorem printUpdate_eq (env : Env) (w : World) (k : Nat) (p : Installer) :
    printUpdate env w k p = ⟨w.stdout ++ updateLines env k p, w.events⟩ := by
  simp only [printUpdate, printFiles_eq, printMetaData_eq, printDepends_eq, printProvides_eq]
  simp [Printf, updateLines]

theorem printUpdates_eq (env : Env) (k : Nat) (hs : List Installer) (w : World) :
    printUpdates env k hs w =
      ⟨w.stdout ++ (hs.enumFrom k).flatMap (fun kp => updateLines env kp.1 kp.2), w.events⟩ := by
  induction hs generalizing k w with
  | nil => simp [printUpdates]
  | cons h hs ih =>
    simp only [printUpdates, ih, printUpdate_eq, List.enumFrom_cons, List.flatMap_cons]
    simp

theorem printSummary_eq (env : Env) (l : Locals) (r : ReaderData) (w : World) :
    printSummary env l r w = ⟨w.stdout ++ summaryLines env l.sigInfo l.scripts r, w.events⟩ := by
  have hlen : (l.scripts.length : Int) > -1 := by omega
  rcases r with ⟨name, info, devs, ap, ad, hs⟩
  simp only [printSummary, hlen, if_true, printUpdates_eq, foldl_Printf, summaryLines,
    updatesLines, List.enum, artifactLines, scriptLines, signatureLine]
  cases ap <;> cases ad <;> simp [Printf]

theorem runReader_result (vc : Option (Bytes → Bytes → GoError)) (p : ReaderProg)
    (l : Locals) : (runReader vc p l).2 = p.result := by
  induction p generalizing l with
  | ret res => rfl
  | verify message sig k ih => simp [runReader, ReaderProg.result, ver, ih]
  | script r info k ih => simp [runReader, ReaderProg.result, readScripts, ih]

theorem runReader_scripts (vc : Option (Bytes → Bytes → GoError)) (p : ReaderProg)
    (l : Locals) :
    (runReader vc p l).1.scripts =
      l.scripts ++ (scriptCalls p.calls).map (fun i => i.Name) := by
  induction p generalizing l with
  | ret res => simp [runReader, ReaderProg.calls, scriptCalls]
  | verify message sig k ih =>
    simp only [runReader, ReaderProg.calls, scriptCalls, ver, ih]
    cases vc with
    | none => simp
    | some v => by_cases h : v message sig = none <;> simp [h]
  | script r info k ih =>
    simp [runReader, ReaderProg.calls, scriptCalls, readScripts, ih]

theorem statusAfter_cons (v : Bytes → Bytes → GoError) (s0 : String) (c : Bytes × Bytes)
    (cs : List (Bytes × Bytes)) :
    statusAfter v s0 (c :: cs) =
      statusAfter v (if v c.1 c.2 = none then sigVerified else sigFailed) cs := by
  cases cs with
  | nil => simp [statusAfter]
  | cons d ds =>
    simp only [statusAfter, List.getLast?_cons_cons]
    cases hh : (d :: ds).getLast? with
    | none => simp at hh
    | some x => rfl

theorem runReader_sigInfo (v : Bytes → Bytes → GoError) (p : ReaderProg) (l : Locals) :
    (runReader (some v) p l).1.sigInfo = statusAfter v l.sigInfo (verCalls p.calls) := by
  induction p generalizing l with
  | ret res => simp [runReader, ReaderProg.calls, verCalls, statusAfter]
  | verify message sig k ih =>
    simp only [runReader, ReaderProg.calls, verCalls, ver, ih, statusAfter_cons]
    by_cases h : v message sig = none <;> simp [h]
  | script r info k ih =>
    simp [runReader, ReaderProg.calls, verCalls, readScripts, ih]

/-- The three file-system events of a run in which the file could be opened. -/
theorem readArtifact_events_opened (env : Env) (c : Context) (f : Bytes)
    (hargs : c.NArg ≠ 0) (hopen : env.osOpen c.First = some f) :
    (readArtifact env c).1.events =
      [Event.osOpen c.First true, Event.getKey c.key, Event.fClose c.First] := by
  rcases hk : env.getKey c.key with ⟨key, e⟩
  cases e with
  | some e => simp [readArtifact, hargs, hopen, readOpened, hk, World.log]
  | none =>
    rcases hr : runReader (some (env.Verify key)) (env.read f) ⟨sigNone, none, []⟩ with ⟨l, res⟩
    cases res with
    | error e => simp [readArtifact, hargs, hopen, readOpened, hk, hr, World.log]
    | ok d => simp [readArtifact, hargs, hopen, readOpened, hk, hr, World.log, printSummary_eq]

/-- A run whose read ends with an error prints nothing and returns that error
with exit code 0. -/
theorem readArtifact_read_error (env : Env) (c : Context) (f key : Bytes) (e : String)
    (hargs : c.NArg ≠ 0) (hopen : env.osOpen c.First = some f)
    (hkey : env.getKey c.key = (key, none))
    (hres : (env.read f).result = .error e) :
    (readArtifact env c).1.stdout = [] ∧ (readArtifact env c).2 = some (NewExitError e 0) := by
  have h2 := runReader_result (some (env.Verify key)) (env.read f) ⟨sigNone, none, []⟩
  rw [hres] at h2
  rcases hr : runReader (some (env.Verify key)) (env.read f) ⟨sigNone, none, []⟩ with ⟨l, res⟩
  rw [hr] at h2
  simp only at h2
  subst h2
  simp [readArtifact, hargs, hopen, readOpened, hkey, hr, World.log]

/-- A run whose read succeeds prints exactly the summary and returns nil. -/
theorem readArtifact_read_ok (env : Env) (c : Context) (f key : Bytes) (d : ReaderData)
    (hargs : c.NArg ≠ 0) (hopen : env.osOpen c.First = some f)
    (hkey : env.getKey c.key = (key, none))
    (hres : (env.read f).result = .ok d) :
    (readArtifact env c).1.stdout =
        summaryLines env (statusAfter (env.Verify key) sigNone (verCalls (env.read f).calls))
          ((scriptCalls (env.read f).calls).map (fun i => i.Name)) d ∧
      (readArtifact env c).2 = none := by
  have h2 := runReader_result (some (env.Verify key)) (env.read f) ⟨sigNone, none, []⟩
  have h3 := runReader_scripts (some (env.Verify key)) (env.read f) ⟨sigNone, none, []⟩
  have h4 := runReader_sigInfo (env.Verify key) (env.read f) ⟨sigNone, none, []⟩
  rw [hres] at h2
  rcases hr : runReader (some (env.Verify key)) (env.read f) ⟨sigNone, none, []⟩ with ⟨l, res⟩
  rw [hr] at h2 h3 h4
  simp only at h2 h3 h4
  subst h2
  simp [readArtifact, hargs, hopen, readOpened, hkey, hr, World.log, printSummary_eq, h3, h4]

theorem summaryLines_signature (env : Env) (status : String) (names : List String)
    (r : ReaderData) : (summaryLines env status names r)[4]? = some (signatureLine status) := by
  simp [summaryLines, artifactLines]

theorem statusAfter_last (v : Bytes → Bytes → GoError) (s0 : String)
    (cs : List (Bytes × Bytes)) (message sig : Bytes)
    (hlast : cs.getLast? = some (message, sig)) :
    statusAfter v s0 cs = if v message sig = none then sigVerified else sigFailed := by
  simp [statusAfter, hlast]

theorem statusAfter_nil (v : Bytes → Bytes → GoError) (s0 : String) :
    statusAfter v s0 [] = s0 := by
  simp [statusAfter]

theorem signatureLine_verified_ne_failed : signatureLine sigVerified ≠ signatureLine sigFailed := by
  decide

/-! ## The claims -/

/-- C1 (code defect).  The claim expects the no-key status when no key is
supplied.  In the code `verifyCallback` is assigned unconditionally, so when the
key option is unset, `getKey` gives the empty key, the reader invokes `ver` at
least once and the read succeeds, the printed signature line never carries the
no-key status: it is the verified or the verification-failed status, as decided
by the verifier built from the empty key. -/
theorem C1_no_key_status_never_printed (env : Env) (c : Context) (f : Bytes) (d : ReaderData)
    (hargs : c.NArg ≠ 0) (hopen : env.osOpen c.First = some f)
    (hunset : c.key = "") (hkey : env.getKey "" = ([], none))
    (hres : (env.read f).result = .ok d)
    (hver : verCalls (env.read f).calls ≠ []) :
    (readArtifact env c).1.stdout[4]? ≠ some (signatureLine sigNoKey) ∧
      ((readArtifact env c).1.stdout[4]? = some (signatureLine sigVerified) ∨
        (readArtifact env c).1.stdout[4]? = some (signatureLine sigFailed)) ∧
      (readArtifact env c).2 = none := by
  have hkey2 : env.getKey c.key = ([], none) := by rw [hunset]; exact hkey
  obtain ⟨hout, hret⟩ := readArtifact_read_ok env c f [] d hargs hopen hkey2 hres
  rw [hout, summaryLines_signature]
  obtain ⟨ms, hlast⟩ : ∃ ms, (verCalls (env.read f).calls).getLast? = some ms := by
    cases hg : (verCalls (env.read f).calls).getLast? with
    | none => exact absurd (List.getLast?_eq_none_iff.mp hg) hver
    | some ms => exact ⟨ms, rfl⟩
  rw [statusAfter_last _ _ _ ms.1 ms.2 hlast]
  refine ⟨?_, ?_, hret⟩
  · by_cases h : env.Verify [] ms.1 ms.2 = none
    · rw [if_pos h]; decide
    · rw [if_neg h]; decide
  · by_cases h : env.Verify [] ms.1 ms.2 = none
    · rw [if_pos h]; exact Or.inl rfl
    · rw [if_neg h]; exact Or.inr rfl

/-- Witness for C1: `read artifact.mender` without a key on a signed artifact
prints the verification-failed status, not the no-key status. -/
theorem C1_no_key_status_never_printed_witness :
    (readArtifact (sampleEnv (signedReader (.ok sampleData))) ctxNoKey).1.stdout[4]? ≠
        some (signatureLine sigNoKey) ∧
      (readArtifact (sampleEnv (signedReader (.ok sampleData))) ctxNoKey).1.stdout[4]? =
        some (signatureLine sigFailed) :=
  have h := C1_no_key_status_never_printed (sampleEnv (signedReader (.ok sampleData))) ctxNoKey
    [77, 69] sampleData (by decide) (by decide) rfl rfl rfl (by decide)
  ⟨h.1, by decide⟩

/-- C2.  The closure `ver` returns nil for every verification callback, message
and signature; and when the last signature check of a read fails while the
reader itself ends without error, `readArtifact` returns nil and prints the
whole summary with the status "signed; verification using provided key
failed". -/
theorem C2_failed_verification_not_fatal (env : Env) (c : Context) (f key : Bytes)
    (d : ReaderData) (message sig : Bytes) (e : String)
    (hargs : c.NArg ≠ 0) (hopen : env.osOpen c.First = some f)
    (hkey : env.getKey c.key = (key, none))
    (hres : (env.read f).result = .ok d)
    (hlast : (verCalls (env.read f).calls).getLast? = some (message, sig))
    (hfail : env.Verify key message sig = some e) :
    (∀ (vc : Option (Bytes → Bytes → GoError)) (l : Locals) (m s : Bytes),
        (ver vc l m s).2 = none) ∧
      (readArtifact env c).2 = none ∧
      (readArtifact env c).1.stdout =
        summaryLines env sigFailed ((scriptCalls (env.read f).calls).map (fun i => i.Name)) d ∧
      sigFailed = "signed; verification using provided key failed" := by
  obtain ⟨hout, hret⟩ := readArtifact_read_ok env c f key d hargs hopen hkey hres
  refine ⟨fun vc l m s => rfl, hret, ?_, rfl⟩
  rw [hout, statusAfter_last _ _ _ message sig hlast, hfail]
  simp

/-- Witness for C2: reading a signed artifact with a key that does not match. -/
theorem C2_failed_verification_not_fatal_witness :
    (readArtifact (sampleEnv (signedReader (.ok sampleData))) ctxOtherKey).2 = none ∧
      (readArtifact (sampleEnv (signedReader (.ok sampleData))) ctxOtherKey).1.stdout =
        summaryLines (sampleEnv (signedReader (.ok sampleData))) sigFailed
          ["ArtifactInstall_Enter_01", "ArtifactCommit_Leave_02", "ArtifactInstall_Enter_01"]
          sampleData :=
  have h := C2_failed_verification_not_fatal (sampleEnv (signedReader (.ok sampleData)))
    ctxOtherKey [77, 69] [8] sampleData [1, 2] [7, 1, 2] "verification failed"
    (by decide) (by decide) rfl rfl rfl (by decide)
  ⟨h.2.1, h.2.2.1⟩

/-- C3.  The closure `ver` with a non-nil verification callback sets the status
to "signed and verified correctly" when the callback returns nil and to
"signed; verification using provided key failed" otherwise; and in a
successful read whose last signature check was on `message` and `sig`, the
printed signature line carries the verified status if and only if that check
returned no error, and the failed status if and only if it returned one. -/
theorem C3_status_follows_last_verification (env : Env) (c : Context) (f key : Bytes)
    (d : ReaderData) (message sig : Bytes)
    (hargs : c.NArg ≠ 0) (hopen : env.osOpen c.First = some f)
    (hkey : env.getKey c.key = (key, none))
    (hres : (env.read f).result = .ok d)
    (hlast : (verCalls (env.read f).calls).getLast? = some (message, sig)) :
    (∀ (vc : Bytes → Bytes → GoError) (l : Locals) (m s : Bytes),
        (ver (some vc) l m s).1.sigInfo = if vc m s = none then sigVerified else sigFailed) ∧
      ((readArtifact env c).1.stdout[4]? = some (signatureLine sigVerified) ↔
        env.Verify key message sig = none) ∧
      ((readArtifact env c).1.stdout[4]? = some (signatureLine sigFailed) ↔
        env.Verify key message sig ≠ none) := by
  obtain ⟨hout, _⟩ := readArtifact_read_ok env c f key d hargs hopen hkey hres
  rw [hout, summaryLines_signature, statusAfter_last _ _ _ message sig hlast]
  refine ⟨?_, ?_, ?_⟩
  · intro vc l m s
    by_cases h : vc m s = none <;> simp [ver, h]
  · by_cases h : env.Verify key message sig = none
    · simp [h]
    · simp only [if_neg h, h, iff_false]
      exact fun hh => signatureLine_verified_ne_failed (Option.some.inj hh).symm
  · by_cases h : env.Verify key message sig = none
    · simp only [if_pos h, h, ne_eq, not_true_eq_false, iff_false]
      exact fun hh => signatureLine_verified_ne_failed (Option.some.inj hh)
    · simp [h]

/-- Witness for C3: reading a signed artifact with the matching key. -/
theorem C3_status_follows_last_verification_witness :
    (readArtifact (sampleEnv (signedReader (.ok sampleData))) ctxKey).1.stdout[4]? =
        some (signatureLine sigVerified) ∧
      sampleVerify [7] [1, 2] [7, 1, 2] = none :=
  have h := C3_status_follows_last_verification (sampleEnv (signedReader (.ok sampleData)))
    ctxKey [77, 69] [7] sampleData [1, 2] [7, 1, 2] (by decide) (by decide) rfl rfl rfl
  ⟨h.2.1.mpr (by decide), by decide⟩

/-- C4.  When `read` returns an error, `readArtifact` returns an exit error with
that error text and prints nothing at all. -/
theorem C4_read_error_prints_nothing (env : Env) (c : Context) (f key : Bytes) (e : String)
    (hargs : c.NArg ≠ 0) (hopen : env.osOpen c.First = some f)
    (hkey : env.getKey c.key = (key, none))
    (hres : (env.read f).result = .error e) :
    (∃ x, (readArtifact env c).2 = some x ∧ x.message = e) ∧
      (readArtifact env c).1.stdout = [] := by
  obtain ⟨hout, hret⟩ := readArtifact_read_error env c f key e hargs hopen hkey hres
  exact ⟨⟨_, hret, rfl⟩, hout⟩

/-- Witness for C4: a reader that fails with a checksum mismatch after the
signature and the scripts were handled. -/
theorem C4_read_error_prints_nothing_witness :
    (∃ x, (readArtifact (sampleEnv (signedReader (.error "checksum mismatch"))) ctxKey).2 =
        some x ∧ x.message = "checksum mismatch") ∧
      (readArtifact (sampleEnv (signedReader (.error "checksum mismatch"))) ctxKey).1.stdout = [] :=
  C4_read_error_prints_nothing (sampleEnv (signedReader (.error "checksum mismatch"))) ctxKey
    [77, 69] [7] "checksum mismatch" (by decide) (by decide) rfl rfl

/-- C5.  After a successful read `readArtifact` returns nil and prints, below
the heading of the updates section, one block per handler, in handler order and
numbered from 0.  Each block holds the index line, the type line, the provides,
depends and metadata blocks and the lines of every file; a getter that returns
an error turns only its own block into the "Invalid ... section" line with the
error text. -/
theorem C5_invalid_sections_reported (env : Env) (c : Context) (f key : Bytes)
    (d : ReaderData)
    (hargs : c.NArg ≠ 0) (hopen : env.osOpen c.First = some f)
    (hkey : env.getKey c.key = (key, none))
    (hres : (env.read f).result = .ok d) :
    (readArtifact env c).2 = none ∧
      (readArtifact env c).1.stdout =
        artifactLines (statusAfter (env.Verify key) sigNone (verCalls (env.read f).calls)) d ++
          scriptLines ((scriptCalls (env.read f).calls).map (fun i => i.Name)) ++
          "\nUpdates:\n" :: d.Handlers.enum.flatMap (fun kp => updateLines env kp.1 kp.2) ∧
      (∀ (k : Nat) (p : Installer), updateLines env k p =
        ["  " ++ fmtD3 k ++ ":\n", "    Type:   " ++ p.UpdateType ++ "\n"] ++
          providesLines p ++ dependsLines p ++ metaDataLines env p ++
          p.UpdateAllFiles.flatMap fileLines) ∧
      (∀ (p : Installer) (e : String), p.UpdateProvides.2 = some e →
        providesLines p = ["    Provides:", " Invalid provides section: " ++ e ++ "\n"]) ∧
      (∀ (p : Installer) (e : String), p.UpdateDepends.2 = some e →
        dependsLines p = ["    Depends:", " Invalid depends section: " ++ e ++ "\n"]) ∧
      (∀ (p : Installer) (e : String), p.UpdateMetaData.2 = some e →
        metaDataLines env p = ["    Metadata:", " Invalid metadata section: " ++ e ++ "\n"]) := by
  obtain ⟨hout, hret⟩ := readArtifact_read_ok env c f key d hargs hopen hkey hres
  refine ⟨hret, ?_, fun k p => rfl, ?_, ?_, ?_⟩
  · rw [hout]; rfl
  · intro p e h; simp [providesLines, h]
  · intro p e h; simp [dependsLines, h]
  · intro p e h; simp [metaDataLines, h]

/-- Witness for C5: an artifact whose first update has three invalid sections
and whose second update is sound. -/
theorem C5_invalid_sections_reported_witness :
    (readArtifact (sampleEnv (unsignedReader (.ok sampleData))) ctxNoKey).2 = none ∧
      (readArtifact (sampleEnv (unsignedReader (.ok sampleData))) ctxNoKey).1.stdout =
        artifactLines sigNone sampleData ++ scriptLines ["ArtifactInstall_Enter_01"] ++
          "\nUpdates:\n" ::
            (updateLines (sampleEnv (unsignedReader (.ok sampleData))) 0 sampleBrokenHandler ++
              updateLines (sampleEnv (unsignedReader (.ok sampleData))) 1 sampleHandler) :=
  have h := C5_invalid_sections_reported (sampleEnv (unsignedReader (.ok sampleData))) ctxNoKey
    [77, 69] [] sampleData (by decide) (by decide) rfl rfl
  ⟨h.1, by decide⟩

/-- C6.  When the reader never invokes the signature callback during a
successful read, the printed signature line is "  Signature: no signature",
whatever the key option and the loaded key are. -/
theorem C6_no_signature_status (env : Env) (c : Context) (f key : Bytes) (d : ReaderData)
    (hargs : c.NArg ≠ 0) (hopen : env.osOpen c.First = some f)
    (hkey : env.getKey c.key = (key, none))
    (hres : (env.read f).result = .ok d)
    (hnone : verCalls (env.read f).calls = []) :
    (readArtifact env c).1.stdout[4]? = some "  Signature: no signature\n" := by
  obtain ⟨hout, _⟩ := readArtifact_read_ok env c f key d hargs hopen hkey hres
  rw [hout, summaryLines_signature, hnone, statusAfter_nil]
  rfl

/-- Witness for C6: an unsigned artifact read with a key supplied. -/
theorem C6_no_signature_status_witness :
    (readArtifact (sampleEnv (unsignedReader (.ok sampleData))) ctxKey).1.stdout[4]? =
      some "  Signature: no signature\n" :=
  C6_no_signature_status (sampleEnv (unsignedReader (.ok sampleData))) ctxKey [77, 69] [7]
    sampleData (by decide) (by decide) rfl rfl rfl

/-- C7.  The closure `readScripts` returns nil, leaves the bytes of its reader
untouched and appends the name of the entry at the end of `scripts`, changing
no other local; and after a successful read the state-scripts section of the
summary is its heading followed by one line per script-callback invocation, in
invocation order, duplicates included, and then the heading of the updates
section. -/
theorem C7_scripts_listed_in_order (env : Env) (c : Context) (f key : Bytes) (d : ReaderData)
    (hargs : c.NArg ≠ 0) (hopen : env.osOpen c.First = some f)
    (hkey : env.getKey c.key = (key, none))
    (hres : (env.read f).result = .ok d) :
    (∀ (l : Locals) (r : Bytes) (info : FileInfo),
        readScripts l r info = (⟨l.sigInfo, l.err, l.scripts ++ [info.Name]⟩, r, none)) ∧
      (readArtifact env c).1.stdout =
        artifactLines (statusAfter (env.Verify key) sigNone (verCalls (env.read f).calls)) d ++
          "  State scripts:\n" ::
            (scriptCalls (env.read f).calls).map (fun i => "    " ++ i.Name ++ "\n") ++
          "\nUpdates:\n" :: updatesLines env d.Handlers := by
  obtain ⟨hout, _⟩ := readArtifact_read_ok env c f key d hargs hopen hkey hres
  refine ⟨fun l r info => rfl, ?_⟩
  rw [hout]
  simp [summaryLines, scriptLines, List.map_map, Function.comp_def]

/-- Witness for C7: three script entries, two of them with the same name. -/
theorem C7_scripts_listed_in_order_witness :
    (readArtifact (sampleEnv (signedReader (.ok sampleData))) ctxKey).1.stdout =
      artifactLines sigVerified sampleData ++
        "  State scripts:\n" ::
          ["    ArtifactInstall_Enter_01\n", "    ArtifactCommit_Leave_02\n",
            "    ArtifactInstall_Enter_01\n"] ++
        "\nUpdates:\n" ::
          updatesLines (sampleEnv (signedReader (.ok sampleData))) sampleData.Handlers :=
  have h := C7_scripts_listed_in_order (sampleEnv (signedReader (.ok sampleData))) ctxKey
    [77, 69] [7] sampleData (by decide) (by decide) rfl rfl
  h.2.trans (by decide)

theorem readArtifact_events (env : Env) (c : Context) :
    (readArtifact env c).1.events =
      if c.NArg = 0 then []
      else
        match env.osOpen c.First with
        | none => [Event.osOpen c.First false]
        | some _ => [Event.osOpen c.First true, Event.getKey c.key, Event.fClose c.First] := by
  by_cases hargs : c.NArg = 0
  · simp [readArtifact, hargs]
  · cases hopen : env.osOpen c.First with
    | none => simp [readArtifact, hargs, hopen, World.log]
    | some f => simp [hargs, readArtifact_events_opened env c f hargs hopen]

/-- C9.  The file-system events of `readArtifact` are: none when no argument is
given; the failed open alone when the file cannot be opened; and otherwise the
successful open, the key loading and one close of the opened file as the last
event, whether the key loading fails, the read fails or the summary is printed.
So the closes always match the successful opens and there is at most one. -/
theorem C9_file_closed_exactly_once (env : Env) (c : Context) :
    (readArtifact env c).1.events =
        (if c.NArg = 0 then []
         else
          match env.osOpen c.First with
          | none => [Event.osOpen c.First false]
          | some _ => [Event.osOpen c.First true, Event.getKey c.key, Event.fClose c.First]) ∧
      closeCount (readArtifact env c).1.events = openCount (readArtifact env c).1.events ∧
      closeCount (readArtifact env c).1.events =
        (if c.NArg ≠ 0 ∧ (env.osOpen c.First).isSome then 1 else 0) := by
  refine ⟨readArtifact_events env c, ?_, ?_⟩
  · rw [readArtifact_events]
    by_cases hargs : c.NArg = 0
    · simp [hargs, closeCount, openCount]
    · cases hopen : env.osOpen c.First <;> simp [hargs, closeCount, openCount]
  · rw [readArtifact_events]
    by_cases hargs : c.NArg = 0
    · simp [hargs, closeCount]
    · cases hopen : env.osOpen c.First <;> simp [hargs, closeCount]

/-- C10.  The error returned by `readArtifact` is decided in this order: no
argument gives the invalid-parameters code; a failed open gives the open code;
a key-loading failure gives the invalid-parameters code; an error of `read`
gives an exit error with that text and exit code 0; otherwise nil.  With no
argument nothing is opened, and after a failed open no key is loaded. -/
theorem C10_exit_codes (env : Env) (c : Context) :
    (readArtifact env c).2 =
        (if c.NArg = 0 then
          some (NewExitError nothingSpecified env.errArtifactInvalidParameters)
         else
          match env.osOpen c.First with
          | none => some (NewExitError ("Can not open artifact: " ++ c.First) env.errArtifactOpen)
          | some f =>
            match (env.getKey c.key).2 with
            | some e => some (NewExitError e env.errArtifactInvalidParameters)
            | none =>
              match (env.read f).result with
              | .error e => some (NewExitError e 0)
              | .ok _ => none) ∧
      (readArtifact env c).1.events =
        (if c.NArg = 0 then []
         else
          match env.osOpen c.First with
          | none => [Event.osOpen c.First false]
          | some _ => [Event.osOpen c.First true, Event.getKey c.key, Event.fClose c.First]) := by
  refine ⟨?_, readArtifact_events env c⟩
  by_cases hargs : c.NArg = 0
  · simp [readArtifact, hargs, nothingSpecified]
  · cases hopen : env.osOpen c.First with
    | none => simp [readArtifact, hargs, hopen]
    | some f =>
      rcases hk : env.getKey c.key with ⟨key, e⟩
      cases e with
      | some e => simp [readArtifact, hargs, hopen, readOpened, hk]
      | none =>
        cases hres : (env.read f).result with
        | error e =>
          simp [hargs, hres, (readArtifact_read_error env c f key e hargs hopen hk hres).2]
        | ok d =>
          simp [hargs, hres, (readArtifact_read_ok env c f key d hargs hopen hk hres).2]

/-! ## Auxiliary facts on comparing two summaries -/

/-- The signature status depends on the invocations only through the outcomes
of the checks. -/
theorem statusAfter_outcomes (v : Bytes → Bytes → GoError) (s0 : String)
    (cs1 cs2 : List (Bytes × Bytes)) (h : verifyOutcomes v cs1 = verifyOutcomes v cs2) :
    statusAfter v s0 cs1 = statusAfter v s0 cs2 := by
  have key : ∀ l : List (Bytes × Bytes), statusAfter v s0 l =
      match (verifyOutcomes v l).getLast? with
      | none => s0
      | some b => if b then sigVerified else sigFailed := by
    intro l
    simp only [statusAfter, verifyOutcomes, List.getLast?_map]
    cases hl : l.getLast? with
    | none => rfl
    | some ms =>
      rcases ms with ⟨m, s⟩
      cases hv : v m s <;> simp [hv]
  rw [key, key, h]

/-- No line of the artifact-level part, of the state-scripts section or the
heading of the updates section is an entry line. -/
theorem artifact_and_script_lines_not_entry (status : String) (names : List String)
    (r : ReaderData) :
    ∀ s ∈ artifactLines status r ++ scriptLines names ++ ["\nUpdates:\n"],
      isEntryLine s = false := by
  rcases r with ⟨name, info, devs, ap, ad, hsd⟩
  cases ap <;> cases ad <;>
    simp [artifactLines, scriptLines, signatureLine, isEntryLine, String.data_append, or_imp,
      forall_and]

/-- No line of the metadata block is an entry line. -/
theorem metaDataLines_not_entry (env : Env) (p : Installer) :
    ∀ s ∈ metaDataLines env p, isEntryLine s = false := by
  simp only [metaDataLines]
  split
  · simp [isEntryLine, String.data_append]
  · split
    · simp [isEntryLine, String.data_append]
    · split
      · simp [isEntryLine, String.data_append]
      · split <;> simp [isEntryLine, String.data_append]

/-- No line printed for the files of an update is an entry line. -/
theorem filesLines_not_entry (p : Installer) :
    ∀ s ∈ filesLines p, isEntryLine s = false := by
  intro s hs
  simp only [filesLines, List.mem_flatMap, fileLines] at hs
  obtain ⟨f, _, hf⟩ := hs
  revert s
  simp [isEntryLine, String.data_append]

theorem isEntryLine_providesEntry (kv : String × String) :
    isEntryLine (providesEntry kv) = true := by
  simp [isEntryLine, providesEntry, String.data_append]

theorem isEntryLine_dependsEntry (kv : String × List String) :
    isEntryLine (dependsEntry kv) = true := by
  simp [isEntryLine, dependsEntry, String.data_append]

theorem agreeAfterEntries_nil : agreeAfterEntries [] [] := by
  intro a1 a2 h
  simp [sameUpToEntryOrderFrom, h]

theorem agreeAfterEntries_line (s : String) (xs ys : List String)
    (hs : isEntryLine s = false) (h : agreeAfterEntries xs ys) :
    agreeAfterEntries (s :: xs) (s :: ys) := by
  intro a1 a2 ha
  simp [sameUpToEntryOrderFrom, hs, ha, h [] [] (List.Perm.refl _)]

theorem agreeAfterEntries_frame (frame xs ys : List String)
    (hF : ∀ s ∈ frame, isEntryLine s = false) (h : agreeAfterEntries xs ys) :
    agreeAfterEntries (frame ++ xs) (frame ++ ys) := by
  induction frame with
  | nil => exact h
  | cons s frame ih =>
    exact agreeAfterEntries_line s _ _ (hF s (by simp))
      (ih (fun t ht => hF t (by simp [ht])))

theorem sameUpToEntryOrderFrom_entries (es fs : List String)
    (hlen : es.length = fs.length)
    (hes : ∀ s ∈ es, isEntryLine s = true) (hfs : ∀ s ∈ fs, isEntryLine s = true)
    (a1 a2 xs ys : List String) :
    sameUpToEntryOrderFrom a1 a2 (es ++ xs) (fs ++ ys) =
      sameUpToEntryOrderFrom (es.reverse ++ a1) (fs.reverse ++ a2) xs ys := by
  induction es generalizing fs a1 a2 with
  | nil =>
    cases fs with
    | nil => rfl
    | cons f fs => simp at hlen
  | cons e es ih =>
    cases fs with
    | nil => simp at hlen
    | cons f fs =>
      have he := hes e (by simp)
      have hf := hfs f (by simp)
      simp only [List.cons_append, sameUpToEntryOrderFrom, he, hf, if_true]
      show sameUpToEntryOrderFrom (e :: a1) (f :: a2) (es ++ xs) (fs ++ ys) = _
      rw [ih fs (by simpa using hlen) (fun s hs => hes s (by simp [hs]))
        (fun s hs => hfs s (by simp [hs]))]
      simp [List.reverse_cons, List.append_assoc]

theorem agreeAfterEntries_entries (es fs xs ys : List String)
    (hes : ∀ s ∈ es, isEntryLine s = true) (hp : es.Perm fs)
    (h : agreeAfterEntries xs ys) :
    agreeAfterEntries (es ++ xs) (fs ++ ys) := by
  intro a1 a2 ha
  rw [sameUpToEntryOrderFrom_entries es fs hp.length_eq hes
    (fun s hs => hes s (hp.mem_iff.mpr hs))]
  exact h _ _ (((List.reverse_perm es).trans (hp.trans (List.reverse_perm fs).symm)).append ha)

theorem agreeAfterEntries_refl (xs : List String) : agreeAfterEntries xs xs := by
  induction xs with
  | nil => exact agreeAfterEntries_nil
  | cons x xs ih =>
    intro a1 a2 ha
    by_cases hx : isEntryLine x = true
    · simp only [sameUpToEntryOrderFrom, hx, if_true]
      exact ih _ _ (ha.cons x)
    · simp [sameUpToEntryOrderFrom, hx, ha, ih [] [] (List.Perm.refl _)]

theorem sameUpToEntryOrder_of_agree {xs ys : List String} (h : agreeAfterEntries xs ys) :
    sameUpToEntryOrder xs ys :=
  h [] [] (List.Perm.refl _)

theorem providesLines_agree (p q : Installer)
    (h : sameMap p.UpdateProvides q.UpdateProvides) (xs ys : List String)
    (hxy : agreeAfterEntries xs ys) :
    agreeAfterEntries (providesLines p ++ xs) (providesLines q ++ ys) := by
  rcases p with ⟨t, ⟨pm, pe⟩, d, m, fs⟩
  rcases q with ⟨t2, ⟨qm, qe⟩, d2, m2, fs2⟩
  obtain ⟨he, hm⟩ := h
  simp only at he hm
  subst he
  cases pe with
  | some e =>
    exact agreeAfterEntries_line _ _ _ (by decide)
      (agreeAfterEntries_line _ _ _ (by simp [isEntryLine, String.data_append]) hxy)
  | none =>
    cases pm with
    | none =>
      cases qm with
      | none =>
        exact agreeAfterEntries_line _ _ _ (by decide)
          (agreeAfterEntries_line _ _ _ (by decide) hxy)
      | some n => exact absurd hm (by simp)
    | some mp =>
      cases qm with
      | none => exact absurd hm (by simp)
      | some n =>
        have hm2 : mp.Perm n := hm
        have hl : mp.length = n.length := hm2.length_eq
        by_cases h0 : mp.length = 0
        · have h1 : n.length = 0 := by omega
          simp only [providesLines, h0, h1, if_true]
          exact agreeAfterEntries_line _ _ _ (by decide)
            (agreeAfterEntries_line _ _ _ (by decide) hxy)
        · have h1 : ¬ n.length = 0 := by omega
          simp only [providesLines, h0, h1, if_false]
          exact agreeAfterEntries_line _ _ _ (by decide)
            (agreeAfterEntries_line _ _ _ (by decide)
              (agreeAfterEntries_entries _ _ _ _
                (fun s hs => by
                  obtain ⟨kv, _, rfl⟩ := List.mem_map.mp hs
                  exact isEntryLine_providesEntry kv)
                (hm2.map providesEntry) hxy))

theorem dependsLines_agree (p q : Installer)
    (h : sameMap p.UpdateDepends q.UpdateDepends) (xs ys : List String)
    (hxy : agreeAfterEntries xs ys) :
    agreeAfterEntries (dependsLines p ++ xs) (dependsLines q ++ ys) := by
  rcases p with ⟨t, pr, ⟨pm, pe⟩, m, fs⟩
  rcases q with ⟨t2, pr2, ⟨qm, qe⟩, m2, fs2⟩
  obtain ⟨he, hm⟩ := h
  simp only at he hm
  subst he
  cases pe with
  | some e =>
    exact agreeAfterEntries_line _ _ _ (by decide)
      (agreeAfterEntries_line _ _ _ (by simp [isEntryLine, String.data_append]) hxy)
  | none =>
    cases pm with
    | none =>
      cases qm with
      | none =>
        exact agreeAfterEntries_line _ _ _ (by decide)
          (agreeAfterEntries_line _ _ _ (by decide) hxy)
      | some n => exact absurd hm (by simp)
    | some mp =>
      cases qm with
      | none => exact absurd hm (by simp)
      | some n =>
        have hm2 : mp.Perm n := hm
        have hl : mp.length = n.length := hm2.length_eq
        by_cases h0 : mp.length = 0
        · have h1 : n.length = 0 := by omega
          simp only [dependsLines, h0, h1, if_true]
          exact agreeAfterEntries_line _ _ _ (by decide)
            (agreeAfterEntries_line _ _ _ (by decide) hxy)
        · have h1 : ¬ n.length = 0 := by omega
          simp only [dependsLines, h0, h1, if_false]
          exact agreeAfterEntries_line _ _ _ (by decide)
            (agreeAfterEntries_line _ _ _ (by decide)
              (agreeAfterEntries_entries _ _ _ _
                (fun s hs => by
                  obtain ⟨kv, _, rfl⟩ := List.mem_map.mp hs
                  exact isEntryLine_dependsEntry kv)
                (hm2.map dependsEntry) hxy))

theorem updateLines_agree (env : Env) (k : Nat) (p q : Installer) (h : sameInstaller p q)
    (xs ys : List String) (hxy : agreeAfterEntries xs ys) :
    agreeAfterEntries (updateLines env k p ++ xs) (updateLines env k q ++ ys) := by
  obtain ⟨ht, hp, hd, hm, hf⟩ := h
  have hmeta : metaDataLines env p = metaDataLines env q := by
    simp only [metaDataLines, hm]
  have hfiles : filesLines p = filesLines q := by
    simp only [filesLines, hf]
  simp only [updateLines, ht, hmeta, hfiles, List.append_assoc]
  refine agreeAfterEntries_frame _ _ _ ?_ (providesLines_agree p q hp _ _
    (dependsLines_agree p q hd _ _ (agreeAfterEntries_frame _ _ _ (metaDataLines_not_entry env q)
      (agreeAfterEntries_frame _ _ _ (filesLines_not_entry q) hxy))))
  simp [isEntryLine, String.data_append]

theorem updatesFrom_agree (env : Env) (hs1 hs2 : List Installer)
    (h : List.Forall₂ sameInstaller hs1 hs2) (k : Nat) :
    agreeAfterEntries ((hs1.enumFrom k).flatMap (fun kp => updateLines env kp.1 kp.2))
      ((hs2.enumFrom k).flatMap (fun kp => updateLines env kp.1 kp.2)) := by
  induction h generalizing k with
  | nil => exact agreeAfterEntries_nil
  | cons hpq _ ih =>
    simp only [List.enumFrom_cons, List.flatMap_cons]
    exact updateLines_agree env k _ _ hpq _ _ (ih (k + 1))

theorem artifactLines_same (status : String) (a b : ReaderData) (h : sameData a b) :
    artifactLines status a = artifactLines status b := by
  obtain ⟨h1, h2, h3, h4, h5, _⟩ := h
  simp only [artifactLines, h1, h2, h3, h4, h5]

theorem summaryLines_agree (env : Env) (status : String) (names : List String)
    (a b : ReaderData) (h : sameData a b) :
    sameUpToEntryOrder (summaryLines env status names a) (summaryLines env status names b) := by
  obtain ⟨h1, h2, h3, h4, h5, h6⟩ := h
  have hart : artifactLines status a = artifactLines status b := by
    simp only [artifactLines, h1, h2, h3, h4, h5]
  have hshape : ∀ r : ReaderData, summaryLines env status names r =
      (artifactLines status r ++ scriptLines names ++ ["\nUpdates:\n"]) ++
        (r.Handlers.enumFrom 0).flatMap (fun kp => updateLines env kp.1 kp.2) := by
    intro r
    simp [summaryLines, updatesLines, List.enum]
  rw [hshape a, hshape b, hart]
  exact sameUpToEntryOrder_of_agree (agreeAfterEntries_frame _ _ _
    (artifact_and_script_lines_not_entry status names b) (updatesFrom_agree env _ _ h6 0))

/-- An entry line moved from the provides block to the depends block of an
update is not a change of order: the two blocks hold the same lines, and the
comparison fails. -/
theorem sameUpToEntryOrder_not_across_blocks :
    (updateLines (sampleEnv (unsignedReader (.ok sampleData))) 0 sampleHandlerTwoOne).Perm
        (updateLines (sampleEnv (unsignedReader (.ok sampleData))) 0 sampleHandlerOneTwo) ∧
      ¬ sameUpToEntryOrder
        (updateLines (sampleEnv (unsignedReader (.ok sampleData))) 0 sampleHandlerTwoOne)
        (updateLines (sampleEnv (unsignedReader (.ok sampleData))) 0 sampleHandlerOneTwo) := by
  decide

/-- An entry line moved from one update to another is not a change of order
either. -/
theorem sameUpToEntryOrder_not_across_updates :
    ¬ sameUpToEntryOrder
      (updatesLines (sampleEnv (unsignedReader (.ok sampleData)))
        [sampleHandlerFirst, sampleHandlerSecond])
      (updatesLines (sampleEnv (unsignedReader (.ok sampleData)))
        [sampleHandlerSecond, sampleHandlerFirst]) := by
  decide

theorem summaryLines_withReader (env : Env) (rd : Bytes → ReaderProg) (status : String)
    (names : List String) (r : ReaderData) :
    summaryLines (env.withReader rd) status names r = summaryLines env status names r :=
  rfl

/-- C8 (counterexample).  Two reads return structurally identical artifacts and
make the same callback invocations, the maps of the second update being
iterated in two different orders: the printed summaries differ. -/
theorem C8_summary_order_counterexample :
    sameResult (signedReader (.ok sampleData)).result
        (signedReader (.ok sampleDataSwapped)).result ∧
      (signedReader (.ok sampleDataSwapped)).calls = (signedReader (.ok sampleData)).calls ∧
      (readArtifact (sampleEnv (signedReader (.ok sampleData))) ctxKey).1.stdout ≠
        (readArtifact (sampleEnv (signedReader (.ok sampleDataSwapped))) ctxKey).1.stdout := by
  refine ⟨?_, rfl, by decide⟩
  refine ⟨rfl, rfl, rfl, rfl, rfl, ?_⟩
  refine List.Forall₂.cons ⟨rfl, ⟨rfl, trivial⟩, ⟨rfl, trivial⟩, rfl, rfl⟩ ?_
  exact List.Forall₂.cons
    ⟨rfl, ⟨rfl, List.Perm.swap _ _ _⟩, ⟨rfl, List.Perm.swap _ _ _⟩, rfl, rfl⟩ List.Forall₂.nil

/-- C8 (amended).  For two runs that differ only in the reader, where the
readers report the same script names, the signature checks have the same
outcomes and the reads end with structurally identical results: the returned
error and the file-system events are identical; the printed summaries agree
line by line, except that the entry lines printed between two consecutive
other lines may come in another order; after two successful reads each summary
is the print of the artifact of its own run, with the same status and script
names, where the provides and the depends block of an update list the entries
of that map in the order in which this run iterates over it; and the summaries
are identical when the two results are equal, the maps iterated in the same
order. -/
theorem C8_summary_determined_up_to_map_order (env : Env) (rd : Bytes → ReaderProg)
    (c : Context)
    (hscripts : ∀ f, env.osOpen c.First = some f →
      (scriptCalls (rd f).calls).map (fun i => i.Name) =
        (scriptCalls (env.read f).calls).map (fun i => i.Name))
    (hsig : ∀ f, env.osOpen c.First = some f →
      verifyOutcomes (env.Verify (env.getKey c.key).1) (verCalls (rd f).calls) =
        verifyOutcomes (env.Verify (env.getKey c.key).1) (verCalls (env.read f).calls))
    (hres : ∀ f, env.osOpen c.First = some f →
      sameResult (env.read f).result (rd f).result) :
    (readArtifact (env.withReader rd) c).2 = (readArtifact env c).2 ∧
      (readArtifact (env.withReader rd) c).1.events = (readArtifact env c).1.events ∧
      sameUpToEntryOrder (readArtifact env c).1.stdout
        (readArtifact (env.withReader rd) c).1.stdout ∧
      (∀ (f : Bytes) (d1 d2 : ReaderData), c.NArg ≠ 0 → env.osOpen c.First = some f →
        (env.getKey c.key).2 = none → (env.read f).result = .ok d1 →
        (rd f).result = .ok d2 →
        (readArtifact env c).1.stdout =
            artifactLines (statusAfter (env.Verify (env.getKey c.key).1) sigNone
                (verCalls (env.read f).calls)) d1 ++
              scriptLines ((scriptCalls (env.read f).calls).map (fun i => i.Name)) ++
              "\nUpdates:\n" :: d1.Handlers.enum.flatMap (fun kp => updateLines env kp.1 kp.2) ∧
          (readArtifact (env.withReader rd) c).1.stdout =
            artifactLines (statusAfter (env.Verify (env.getKey c.key).1) sigNone
                (verCalls (env.read f).calls)) d1 ++
              scriptLines ((scriptCalls (env.read f).calls).map (fun i => i.Name)) ++
              "\nUpdates:\n" ::
                d2.Handlers.enum.flatMap (fun kp => updateLines env kp.1 kp.2)) ∧
      (∀ (k : Nat) (p : Installer), updateLines env k p =
        ["  " ++ fmtD3 k ++ ":\n", "    Type:   " ++ p.UpdateType ++ "\n"] ++
          providesLines p ++ dependsLines p ++ metaDataLines env p ++
          p.UpdateAllFiles.flatMap fileLines) ∧
      (∀ (p : Installer) (m : GoMap String), p.UpdateProvides = (some m, none) → m ≠ [] →
        providesLines p =
          "    Provides:" :: "\n" :: m.map (fun kv => "\t" ++ kv.1 ++ ": " ++ kv.2 ++ "\n")) ∧
      (∀ (p : Installer) (m : GoMap (List String)), p.UpdateDepends = (some m, none) →
        m ≠ [] →
        dependsLines p =
          "    Depends:" :: "\n" ::
            m.map (fun kv => "\t" ++ kv.1 ++ ": " ++ fmtStrings kv.2 ++ "\n")) ∧
      ((∀ f, env.osOpen c.First = some f → (rd f).result = (env.read f).result) →
        (readArtifact (env.withReader rd) c).1.stdout = (readArtifact env c).1.stdout) := by
  have hev : (readArtifact (env.withReader rd) c).1.events = (readArtifact env c).1.events := by
    rw [readArtifact_events, readArtifact_events]
    rfl
  have hprov : ∀ (p : Installer) (m : GoMap String), p.UpdateProvides = (some m, none) →
      m ≠ [] → providesLines p =
        "    Provides:" :: "\n" :: m.map (fun kv => "\t" ++ kv.1 ++ ": " ++ kv.2 ++ "\n") := by
    intro p m hp hm
    have hl : ¬ m.length = 0 := fun h0 => hm (List.length_eq_zero.mp h0)
    simp only [providesLines, hp, hl, if_false]
    rfl
  have hdep : ∀ (p : Installer) (m : GoMap (List String)), p.UpdateDepends = (some m, none) →
      m ≠ [] → dependsLines p =
        "    Depends:" :: "\n" ::
          m.map (fun kv => "\t" ++ kv.1 ++ ": " ++ fmtStrings kv.2 ++ "\n") := by
    intro p m hp hm
    have hl : ¬ m.length = 0 := fun h0 => hm (List.length_eq_zero.mp h0)
    simp only [dependsLines, hp, hl, if_false]
    rfl
  have main : (readArtifact (env.withReader rd) c).2 = (readArtifact env c).2 ∧
      sameUpToEntryOrder (readArtifact env c).1.stdout
        (readArtifact (env.withReader rd) c).1.stdout ∧
      (∀ (f : Bytes) (d1 d2 : ReaderData), c.NArg ≠ 0 → env.osOpen c.First = some f →
        (env.getKey c.key).2 = none → (env.read f).result = .ok d1 →
        (rd f).result = .ok d2 →
        (readArtifact env c).1.stdout =
            artifactLines (statusAfter (env.Verify (env.getKey c.key).1) sigNone
                (verCalls (env.read f).calls)) d1 ++
              scriptLines ((scriptCalls (env.read f).calls).map (fun i => i.Name)) ++
              "\nUpdates:\n" :: d1.Handlers.enum.flatMap (fun kp => updateLines env kp.1 kp.2) ∧
          (readArtifact (env.withReader rd) c).1.stdout =
            artifactLines (statusAfter (env.Verify (env.getKey c.key).1) sigNone
                (verCalls (env.read f).calls)) d1 ++
              scriptLines ((scriptCalls (env.read f).calls).map (fun i => i.Name)) ++
              "\nUpdates:\n" ::
                d2.Handlers.enum.flatMap (fun kp => updateLines env kp.1 kp.2)) ∧
      ((∀ f, env.osOpen c.First = some f → (rd f).result = (env.read f).result) →
        (readArtifact (env.withReader rd) c).1.stdout = (readArtifact env c).1.stdout) := by
    by_cases hargs : c.NArg = 0
    · have a : readArtifact (env.withReader rd) c = readArtifact env c := by
        simp [readArtifact, hargs, Env.withReader]
      rw [a]
      exact ⟨rfl, sameUpToEntryOrder_of_agree (agreeAfterEntries_refl _),
        fun f d1 d2 h => absurd hargs h, fun _ => rfl⟩
    · cases hopen : env.osOpen c.First with
      | none =>
        have a : readArtifact (env.withReader rd) c = readArtifact env c := by
          simp [readArtifact, hargs, hopen, Env.withReader]
        rw [a]
        exact ⟨rfl, sameUpToEntryOrder_of_agree (agreeAfterEntries_refl _),
          fun f d1 d2 _ h => absurd h (by simp), fun _ => rfl⟩
      | some f =>
        have hopen2 : (env.withReader rd).osOpen c.First = some f := hopen
        have hs := hres f hopen
        have hn := hscripts f hopen
        have ho := hsig f hopen
        rcases hk : env.getKey c.key with ⟨key, e⟩
        rw [hk] at ho
        simp only at ho
        have hk2 : (env.withReader rd).getKey c.key = (key, e) := hk
        cases e with
        | some e =>
          have a : readArtifact (env.withReader rd) c = readArtifact env c := by
            simp [readArtifact, readOpened, hargs, hopen, hopen2, hk, hk2]
            rfl
          rw [a]
          exact ⟨rfl, sameUpToEntryOrder_of_agree (agreeAfterEntries_refl _),
            fun f d1 d2 _ _ h => absurd h (by simp), fun _ => rfl⟩
        | none =>
          have hst := statusAfter_outcomes (env.Verify key) sigNone _ _ ho
          cases r1 : (env.read f).result with
          | error e1 =>
            cases r2 : (rd f).result with
            | error e2 =>
              rw [r1, r2] at hs
              have he : e1 = e2 := hs
              subst he
              obtain ⟨a1, a2⟩ := readArtifact_read_error env c f key e1 hargs hopen hk r1
              obtain ⟨b1, b2⟩ :=
                readArtifact_read_error (env.withReader rd) c f key e1 hargs hopen2 hk2 r2
              refine ⟨b2.trans a2.symm, ?_, ?_, fun _ => b1.trans a1.symm⟩
              · rw [a1, b1]
                exact sameUpToEntryOrder_of_agree agreeAfterEntries_nil
              · intro f2 d1 d2 _ hf _ h1 _
                have hff : f = f2 := Option.some.inj hf
                subst hff
                rw [r1] at h1
                exact absurd h1 (by simp)
            | ok d2 =>
              rw [r1, r2] at hs
              exact absurd hs (by simp [sameResult])
          | ok d1 =>
            cases r2 : (rd f).result with
            | error e2 =>
              rw [r1, r2] at hs
              exact absurd hs (by simp [sameResult])
            | ok d2 =>
              rw [r1, r2] at hs
              have hd : sameData d1 d2 := hs
              obtain ⟨a1, a2⟩ := readArtifact_read_ok env c f key d1 hargs hopen hk r1
              obtain ⟨b1, b2⟩ :=
                readArtifact_read_ok (env.withReader rd) c f key d2 hargs hopen2 hk2 r2
              have b3 : (readArtifact (env.withReader rd) c).1.stdout =
                  summaryLines env (statusAfter (env.Verify key) sigNone (verCalls (rd f).calls))
                    ((scriptCalls (rd f).calls).map (fun i => i.Name)) d2 := b1
              rw [hn, hst] at b3
              refine ⟨b2.trans a2.symm, ?_, ?_, ?_⟩
              · rw [a1, b3]
                exact summaryLines_agree env _ _ d1 d2 hd
              · intro f2 e1 e2 _ hf _ h1 h2
                have hff : f = f2 := Option.some.inj hf
                subst hff
                rw [r1] at h1
                rw [r2] at h2
                cases h1
                cases h2
                refine ⟨a1, ?_⟩
                rw [b3, summaryLines, ← artifactLines_same _ d1 d2 hd]
                rfl
              · intro h
                have h2 := h f rfl
                rw [r1, r2] at h2
                cases h2
                rw [a1, b3]
  obtain ⟨m1, m2, m3, m4⟩ := main
  exact ⟨m1, hev, m2, m3, fun k p => rfl, hprov, hdep, m4⟩

/-- Witness for C8: the two reads of the counterexample, the second one made by
a reader that also sees another signed message and other script contents. -/
theorem C8_summary_determined_up_to_map_order_witness :
    sameUpToEntryOrder
        (readArtifact (sampleEnv (signedReader (.ok sampleData))) ctxKey).1.stdout
        (readArtifact ((sampleEnv (signedReader (.ok sampleData))).withReader
          (fun _ => signedReaderOther (.ok sampleDataSwapped))) ctxKey).1.stdout ∧
      (readArtifact ((sampleEnv (signedReader (.ok sampleData))).withReader
          (fun _ => signedReaderOther (.ok sampleDataSwapped))) ctxKey).1.stdout ≠
        (readArtifact (sampleEnv (signedReader (.ok sampleData))) ctxKey).1.stdout :=
  have hsame : sameResult (signedReader (.ok sampleData)).result
      (signedReaderOther (.ok sampleDataSwapped)).result :=
    ⟨rfl, rfl, rfl, rfl, rfl,
      List.Forall₂.cons ⟨rfl, ⟨rfl, trivial⟩, ⟨rfl, trivial⟩, rfl, rfl⟩
        (List.Forall₂.cons
          ⟨rfl, ⟨rfl, List.Perm.swap _ _ _⟩, ⟨rfl, List.Perm.swap _ _ _⟩, rfl, rfl⟩
          List.Forall₂.nil)⟩
  ⟨(C8_summary_determined_up_to_map_order (sampleEnv (signedReader (.ok sampleData)))
    (fun _ => signedReaderOther (.ok sampleDataSwapped)) ctxKey (fun _ _ => rfl)
    (fun _ _ => rfl) (fun _ _ => hsame)).2.2.1, by decide⟩

end MenderArtifact
